import Mathlib

/-
  Verification development for the fablelands-stellar virtual-pet application.

  The pet lifecycle state machine (decay, actions, evolution, death/revival,
  achievements) is enforced by an external ledger contract whose source is not
  part of this repository; it is modelled here from the written specification.
  The auto-update driver and the Rock-Paper-Scissors minigame are embedded
  directly from the repository's TypeScript sources.
-/

namespace PetWorld

/-- Lifecycle stage of a pet, one of four ordered phases. -/
inductive Stage
  | egg
  | baby
  | teen
  | adult
deriving DecidableEq, Repr

/-- Numeric rank of a stage: Egg < Baby < Teen < Adult. -/
def stageRank : Stage → Nat
  | .egg => 0
  | .baby => 1
  | .teen => 2
  | .adult => 3

/-- Achievement identifiers of the rule set in the spec (section 4.5). -/
inductive AchId
  | firstPet
  | perfectStats
  | feedingStreak
  | activePlayer
  | firstEvolution
  | secondEvolution
  | finalEvolution
  | survivedDeath
deriving DecidableEq, Repr

/-- Modelled from the spec: the Pet record of section 3 (the contract holding
it is external to the repository).  Stats are naturals clamped to [0,100] by
the operations; `earnedAchievements` is kept as a duplicate-free list in
insertion order. -/
structure Pet where
  stage : Stage
  happiness : Nat
  hunger : Nat
  health : Nat
  birthSequence : Nat
  lastUpdateSequence : Nat
  isAlive : Bool
  feedCount : Nat
  playCount : Nat
  earnedAchievements : List AchId
deriving DecidableEq, Repr

/-- Player-visible action kinds accepted by the lifecycle orchestrator. -/
inductive ActionKind
  | feed
  | play (won : Bool)
  | chatTouch
  | forceUpdate
  | revive
deriving DecidableEq, Repr

/-- Error kinds of the orchestrator (section 7); `notFound` belongs to the
store layer and never arises on an in-hand record. -/
inductive PetError
  | notFound
  | deadPet
  | invalidSequence
deriving DecidableEq, Repr

/-- Idempotent achievement insertion: append only when not already earned. -/
def addAch (a : AchId) (l : List AchId) : List AchId :=
  if a ∈ l then l else l ++ [a]

/-- Modelled from the spec: Decay Engine of section 4.1.  Elapsed sequence
distance adds one hunger point per 30 units (capped at 100), removes one
happiness point per 60 units (floored at 0), and removes one health point per
30 units only while hunger is saturated at the maximum over the interval
(hunger already 100 when the interval began), leaving health unchanged
otherwise.  `lastUpdateSequence` advances to the current sequence. -/
def decayStats (p : Pet) (cur : Nat) : Pet :=
  let elapsed := cur - p.lastUpdateSequence
  { p with
      hunger := min (p.hunger + elapsed / 30) 100
      happiness := p.happiness - elapsed / 60
      health := if p.hunger = 100 then p.health - elapsed / 30 else p.health
      lastUpdateSequence := cur }

/-- Feed deltas (section 4.2): hunger minus 40 floored at 0, happiness plus 15
capped at 100, and the feed counter advances. -/
def feedDeltas (p : Pet) : Pet :=
  { p with
      hunger := p.hunger - 40
      happiness := min (p.happiness + 15) 100
      feedCount := p.feedCount + 1 }

/-- Play deltas (section 4.2): on a win, happiness plus 25 capped at 100 and
the play counter advances; a lost game has no effect. -/
def playDeltas (won : Bool) (p : Pet) : Pet :=
  if won then
    { p with
        happiness := min (p.happiness + 25) 100
        playCount := p.playCount + 1 }
  else p

/-- Action-specific deltas; chat touches and forced updates carry none. -/
def actionDeltas : ActionKind → Pet → Pet
  | .feed, p => feedDeltas p
  | .play won, p => playDeltas won p
  | _, p => p

/-- Modelled from the spec: Evolution Resolver of section 4.3, checked
top-down so a pet advances at most one stage per evaluation; each promotion
also unlocks its evolution achievement. -/
def evolveStep (p : Pet) (cur : Nat) : Pet :=
  let age := cur - p.birthSequence
  match p.stage with
  | .egg =>
      if 36 ≤ age then
        { p with stage := .baby
                 earnedAchievements := addAch .firstEvolution p.earnedAchievements }
      else p
  | .baby =>
      if 84 ≤ age ∧ 60 ≤ p.happiness then
        { p with stage := .teen
                 earnedAchievements := addAch .secondEvolution p.earnedAchievements }
      else p
  | .teen =>
      if 144 ≤ age ∧ 60 ≤ p.happiness ∧ 80 ≤ p.health then
        { p with stage := .adult
                 earnedAchievements := addAch .finalEvolution p.earnedAchievements }
      else p
  | .adult => p

/-- Death Resolver (section 4.4): a pet whose health reached 0 is dead. -/
def deathCheck (p : Pet) : Pet :=
  if p.health = 0 then { p with isAlive := false } else p

/-- Whether the three stats are simultaneously perfect. -/
def isPerfect (p : Pet) : Bool :=
  p.happiness = 100 && p.hunger = 0 && p.health = 100

/-- Conditional idempotent unlock: add the achievement when the rule fires. -/
def achIf (c : Prop) [Decidable c] (a : AchId) (l : List AchId) : List AchId :=
  if c then addAch a l else l

/-- Modelled from the spec: stateful achievement rules of section 4.5 that
depend only on the post-transition record: perfect stats, feeding streak at
ten feeds, active player at ten plays.  Mint, evolution and revival trigger
their achievements at their own sites. -/
def statAchievements (p : Pet) : Pet :=
  { p with
      earnedAchievements :=
        achIf (10 ≤ p.playCount) .activePlayer
          (achIf (10 ≤ p.feedCount) .feedingStreak
            (achIf (isPerfect p) .perfectStats p.earnedAchievements)) }

/-- Revival effects (section 4.4): health 50, happiness 30, hunger 50, alive
again, decay clock restarted; everything else kept, and the survived-death
achievement unlocked. -/
def revived (p : Pet) (cur : Nat) : Pet :=
  { p with
      health := 50
      happiness := 30
      hunger := 50
      isAlive := true
      lastUpdateSequence := cur
      earnedAchievements := addAch .survivedDeath p.earnedAchievements }

/-- Modelled from the spec: Lifecycle Orchestrator of section 4.6 over an
in-hand record.  A backwards clock is an invalid sequence; feed and play on a
dead pet fail with the dead-pet error; chat touches and forced updates leave a
dead pet untouched; revival requires a dead pet; an alive pet goes through
decay, action deltas, evolution, the death check and the achievement rules. -/
def applyAction (p : Pet) (k : ActionKind) (cur : Nat) : Except PetError Pet :=
  if cur < p.lastUpdateSequence then .error .invalidSequence
  else match k, p.isAlive with
  | .revive, true => .error .deadPet
  | .revive, false => .ok (statAchievements (revived p cur))
  | .feed, false => .error .deadPet
  | .play _, false => .error .deadPet
  | .chatTouch, false => .ok p
  | .forceUpdate, false => .ok p
  | k, true =>
      .ok (statAchievements (deathCheck (evolveStep (actionDeltas k (decayStats p cur)) cur)))

/-- Modelled from the spec: mint (sections 3 and 6) creates an egg with
happiness 100, hunger 0 and health 100, unlocks the first-pet achievement and
runs the achievement rules on the fresh record. -/
def mint (cur : Nat) : Pet :=
  statAchievements
    { stage := .egg
      happiness := 100
      hunger := 0
      health := 100
      birthSequence := cur
      lastUpdateSequence := cur
      isAlive := true
      feedCount := 0
      playCount := 0
      earnedAchievements := [AchId.firstPet] }

/-- Total wrapper: a failed transition leaves the stored record unchanged. -/
def runAction (p : Pet) (k : ActionKind) (cur : Nat) : Pet :=
  match applyAction p k cur with
  | .ok q => q
  | .error _ => p

/-- A sequence of transitions applied to one pet record. -/
def runActions (p : Pet) : List (ActionKind × Nat) → Pet
  | [] => p
  | (k, c) :: rest => runActions (runAction p k c) rest

/-- The three vital stats all lie within their 0 to 100 clamp. -/
def StatsBounded (p : Pet) : Prop :=
  p.happiness ≤ 100 ∧ p.hunger ≤ 100 ∧ p.health ≤ 100

end PetWorld

namespace AutoUpdate

/-- Sweep interval of the periodic driver, in milliseconds, copied from the
UPDATE_INTERVAL constant of the useAutoUpdate hook. -/
def updateIntervalMs : Nat := 5 * 60 * 1000

/-- Observable state of the useAutoUpdate hook: whether the page is hidden
(document.hidden) and how many all-pets sweeps are currently in flight (the
isRunningRef guard admits at most one). -/
structure DriverState where
  documentHidden : Bool
  running : Nat
deriving DecidableEq, Repr

/-- Events acting on the driver: an interval tick, completion of a sweep, and
a visibility change of the page. -/
inductive DriverEvent
  | tick
  | sweepDone
  | visibility (hidden : Bool)
deriving DecidableEq, Repr

/-- Transition function of the hook's performUpdate logic: a tick starts a
sweep only when the page is visible and no sweep is in flight, a finished
sweep clears the guard, and visibility changes are recorded. -/
def driverStep (s : DriverState) : DriverEvent → DriverState
  | .tick =>
      if s.documentHidden then s
      else if s.running ≠ 0 then s
      else { s with running := s.running + 1 }
  | .sweepDone => { s with running := s.running - 1 }
  | .visibility b => { s with documentHidden := b }

/-- Driver state over a whole event history. -/
def driverRun (s : DriverState) (es : List DriverEvent) : DriverState :=
  es.foldl driverStep s

/-- State at hook initialisation: page visible, no sweep in flight. -/
def driverInit : DriverState := { documentHidden := false, running := 0 }

end AutoUpdate

namespace Rps

/-- Player and computer move of the Rock-Paper-Scissors minigame; the TSX
Choice type also admits null, embedded via Option. -/
inductive Choice
  | rock
  | paper
  | scissors
deriving DecidableEq, Repr, Fintype

/-- Outcome of a round from the player's point of view. -/
inductive GameResult
  | win
  | lose
  | draw
deriving DecidableEq, Repr, Fintype

/-- The determineWinner function of RockPaperScissors.tsx: a draw on equal
choices, a win on the three beating pairs, a loss otherwise. -/
def determineWinner (player computer : Option Choice) : GameResult :=
  if player = computer then .draw
  else if (player = some .rock ∧ computer = some .scissors)
        ∨ (player = some .paper ∧ computer = some .rock)
        ∨ (player = some .scissors ∧ computer = some .paper) then .win
  else .lose

/-- Whether the claim-reward button (the only path to the onGameWin callback)
is rendered, per the result === win conditional of RockPaperScissors.tsx. -/
def claimRewardShown (result : Option GameResult) : Bool :=
  match result with
  | some .win => true
  | _ => false

end Rps

namespace PetWorld

lemma mem_addAch_self (a : AchId) (l : List AchId) : a ∈ addAch a l := by
  unfold addAch
  split
  · assumption
  · simp

lemma mem_addAch_of_mem {a : AchId} (b : AchId) {l : List AchId} (h : a ∈ l) :
    a ∈ addAch b l := by
  unfold addAch
  split
  · exact h
  · simp [h]

lemma addAch_initial (a : AchId) (l : List AchId) : l <+: addAch a l := by
  unfold addAch
  split
  · exact List.prefix_refl l
  · exact List.prefix_append l [a]

lemma count_addAch_ne {a b : AchId} (h : a ≠ b) (l : List AchId) :
    (addAch b l).count a = l.count a := by
  unfold addAch
  split
  · rfl
  · simp [List.count_append, List.count_singleton, h]

lemma count_addAch_self_of_mem {a : AchId} {l : List AchId} (h : a ∈ l) :
    (addAch a l).count a = l.count a := by
  unfold addAch
  simp [h]

lemma count_addAch_self_of_not_mem {a : AchId} {l : List AchId} (h : a ∉ l) :
    (addAch a l).count a = l.count a + 1 := by
  unfold addAch
  simp [h, List.count_append]

@[simp] lemma statAchievements_happiness (p : Pet) :
    (statAchievements p).happiness = p.happiness := rfl

@[simp] lemma statAchievements_hunger (p : Pet) :
    (statAchievements p).hunger = p.hunger := rfl

@[simp] lemma statAchievements_health (p : Pet) :
    (statAchievements p).health = p.health := rfl

@[simp] lemma statAchievements_stage (p : Pet) :
    (statAchievements p).stage = p.stage := rfl

@[simp] lemma statAchievements_isAlive (p : Pet) :
    (statAchievements p).isAlive = p.isAlive := rfl

@[simp] lemma statAchievements_birthSequence (p : Pet) :
    (statAchievements p).birthSequence = p.birthSequence := rfl

@[simp] lemma statAchievements_lastUpdateSequence (p : Pet) :
    (statAchievements p).lastUpdateSequence = p.lastUpdateSequence := rfl

@[simp] lemma statAchievements_feedCount (p : Pet) :
    (statAchievements p).feedCount = p.feedCount := rfl

@[simp] lemma statAchievements_playCount (p : Pet) :
    (statAchievements p).playCount = p.playCount := rfl

@[simp] lemma deathCheck_happiness (p : Pet) :
    (deathCheck p).happiness = p.happiness := by
  unfold deathCheck; split <;> rfl

@[simp] lemma deathCheck_hunger (p : Pet) :
    (deathCheck p).hunger = p.hunger := by
  unfold deathCheck; split <;> rfl

@[simp] lemma deathCheck_health (p : Pet) :
    (deathCheck p).health = p.health := by
  unfold deathCheck; split <;> rfl

@[simp] lemma deathCheck_stage (p : Pet) :
    (deathCheck p).stage = p.stage := by
  unfold deathCheck; split <;> rfl

@[simp] lemma deathCheck_feedCount (p : Pet) :
    (deathCheck p).feedCount = p.feedCount := by
  unfold deathCheck; split <;> rfl

@[simp] lemma deathCheck_playCount (p : Pet) :
    (deathCheck p).playCount = p.playCount := by
  unfold deathCheck; split <;> rfl

@[simp] lemma deathCheck_earnedAchievements (p : Pet) :
    (deathCheck p).earnedAchievements = p.earnedAchievements := by
  unfold deathCheck; split <;> rfl

lemma deathCheck_isAlive (p : Pet) :
    (deathCheck p).isAlive = if p.health = 0 then false else p.isAlive := by
  unfold deathCheck; split <;> simp_all

lemma evolveStep_happiness (p : Pet) (cur : Nat) :
    (evolveStep p cur).happiness = p.happiness := by
  unfold evolveStep
  rcases p.stage <;> simp only <;> split <;> rfl

lemma evolveStep_hunger (p : Pet) (cur : Nat) :
    (evolveStep p cur).hunger = p.hunger := by
  unfold evolveStep
  rcases p.stage <;> simp only <;> split <;> rfl

lemma evolveStep_health (p : Pet) (cur : Nat) :
    (evolveStep p cur).health = p.health := by
  unfold evolveStep
  rcases p.stage <;> simp only <;> split <;> rfl

lemma evolveStep_isAlive (p : Pet) (cur : Nat) :
    (evolveStep p cur).isAlive = p.isAlive := by
  unfold evolveStep
  rcases p.stage <;> simp only <;> split <;> rfl

lemma evolveStep_feedCount (p : Pet) (cur : Nat) :
    (evolveStep p cur).feedCount = p.feedCount := by
  unfold evolveStep
  rcases p.stage <;> simp only <;> split <;> rfl

lemma evolveStep_playCount (p : Pet) (cur : Nat) :
    (evolveStep p cur).playCount = p.playCount := by
  unfold evolveStep
  rcases p.stage <;> simp only <;> split <;> rfl

lemma evolveStep_birthSequence (p : Pet) (cur : Nat) :
    (evolveStep p cur).birthSequence = p.birthSequence := by
  unfold evolveStep
  rcases p.stage <;> simp only <;> split <;> rfl

lemma evolveStep_rank_le (p : Pet) (cur : Nat) :
    stageRank p.stage ≤ stageRank (evolveStep p cur).stage := by
  obtain ⟨st, hap, hun, hea, bs, lus, ia, fc, pc, ea⟩ := p
  cases st <;> simp only [evolveStep] <;>
    first
      | (split <;> simp [stageRank])
      | simp [stageRank]

lemma evolveStep_rank_succ (p : Pet) (cur : Nat) :
    stageRank (evolveStep p cur).stage ≤ stageRank p.stage + 1 := by
  obtain ⟨st, hap, hun, hea, bs, lus, ia, fc, pc, ea⟩ := p
  cases st <;> simp only [evolveStep] <;>
    first
      | (split <;> simp [stageRank])
      | simp [stageRank]

lemma evolveStep_earned_initial (p : Pet) (cur : Nat) :
    p.earnedAchievements <+: (evolveStep p cur).earnedAchievements := by
  obtain ⟨st, hap, hun, hea, bs, lus, ia, fc, pc, ea⟩ := p
  cases st <;> simp only [evolveStep] <;>
    first
      | (split <;>
          first
            | exact addAch_initial _ _
            | exact List.prefix_refl _)
      | exact List.prefix_refl _

lemma achIf_initial (c : Prop) [Decidable c] (a : AchId) (l : List AchId) :
    l <+: achIf c a l := by
  unfold achIf
  split
  · exact addAch_initial _ _
  · exact List.prefix_refl _

lemma mem_achIf_of_mem (c : Prop) [Decidable c] {a : AchId} (b : AchId)
    {l : List AchId} (h : a ∈ l) : a ∈ achIf c b l := by
  unfold achIf
  split
  · exact mem_addAch_of_mem _ h
  · exact h

lemma mem_achIf_self {c : Prop} [Decidable c] (hc : c) (a : AchId)
    (l : List AchId) : a ∈ achIf c a l := by
  unfold achIf
  rw [if_pos hc]
  exact mem_addAch_self _ _

lemma count_achIf_ne {c : Prop} [Decidable c] {a b : AchId} (h : a ≠ b)
    (l : List AchId) : (achIf c b l).count a = l.count a := by
  unfold achIf
  split
  · exact count_addAch_ne h l
  · rfl

lemma statAchievements_earned_initial (p : Pet) :
    p.earnedAchievements <+: (statAchievements p).earnedAchievements := by
  unfold statAchievements
  exact ((achIf_initial _ _ _).trans (achIf_initial _ _ _)).trans (achIf_initial _ _ _)

@[simp] lemma decayStats_hunger (p : Pet) (cur : Nat) :
    (decayStats p cur).hunger =
      min (p.hunger + (cur - p.lastUpdateSequence) / 30) 100 := rfl

@[simp] lemma decayStats_happiness (p : Pet) (cur : Nat) :
    (decayStats p cur).happiness =
      p.happiness - (cur - p.lastUpdateSequence) / 60 := rfl

@[simp] lemma decayStats_health (p : Pet) (cur : Nat) :
    (decayStats p cur).health =
      if p.hunger = 100 then p.health - (cur - p.lastUpdateSequence) / 30
      else p.health := rfl

@[simp] lemma decayStats_stage (p : Pet) (cur : Nat) :
    (decayStats p cur).stage = p.stage := rfl

@[simp] lemma decayStats_isAlive (p : Pet) (cur : Nat) :
    (decayStats p cur).isAlive = p.isAlive := rfl

@[simp] lemma decayStats_birthSequence (p : Pet) (cur : Nat) :
    (decayStats p cur).birthSequence = p.birthSequence := rfl

@[simp] lemma decayStats_lastUpdateSequence (p : Pet) (cur : Nat) :
    (decayStats p cur).lastUpdateSequence = cur := rfl

@[simp] lemma decayStats_feedCount (p : Pet) (cur : Nat) :
    (decayStats p cur).feedCount = p.feedCount := rfl

@[simp] lemma decayStats_playCount (p : Pet) (cur : Nat) :
    (decayStats p cur).playCount = p.playCount := rfl

@[simp] lemma decayStats_earnedAchievements (p : Pet) (cur : Nat) :
    (decayStats p cur).earnedAchievements = p.earnedAchievements := rfl

lemma decayStats_self (p : Pet) (h : p.hunger ≤ 100) :
    decayStats p p.lastUpdateSequence = p := by
  unfold decayStats
  simp [Nat.sub_self, Nat.min_eq_left h]

lemma applyAction_feed_alive (p : Pet) (cur : Nat)
    (halive : p.isAlive = true) (hseq : p.lastUpdateSequence ≤ cur) :
    applyAction p .feed cur =
      .ok (statAchievements (deathCheck (evolveStep (feedDeltas (decayStats p cur)) cur))) := by
  unfold applyAction
  rw [if_neg (Nat.not_lt.mpr hseq), halive]
  rfl

lemma applyAction_play_alive (p : Pet) (won : Bool) (cur : Nat)
    (halive : p.isAlive = true) (hseq : p.lastUpdateSequence ≤ cur) :
    applyAction p (.play won) cur =
      .ok (statAchievements (deathCheck (evolveStep (playDeltas won (decayStats p cur)) cur))) := by
  unfold applyAction
  rw [if_neg (Nat.not_lt.mpr hseq), halive]
  rfl

lemma applyAction_chatTouch_alive (p : Pet) (cur : Nat)
    (halive : p.isAlive = true) (hseq : p.lastUpdateSequence ≤ cur) :
    applyAction p .chatTouch cur =
      .ok (statAchievements (deathCheck (evolveStep (decayStats p cur) cur))) := by
  unfold applyAction
  rw [if_neg (Nat.not_lt.mpr hseq), halive]
  rfl

lemma applyAction_forceUpdate_alive (p : Pet) (cur : Nat)
    (halive : p.isAlive = true) (hseq : p.lastUpdateSequence ≤ cur) :
    applyAction p .forceUpdate cur =
      .ok (statAchievements (deathCheck (evolveStep (decayStats p cur) cur))) := by
  unfold applyAction
  rw [if_neg (Nat.not_lt.mpr hseq), halive]
  rfl

lemma applyAction_feed_dead (p : Pet) (cur : Nat)
    (halive : p.isAlive = false) (hseq : p.lastUpdateSequence ≤ cur) :
    applyAction p .feed cur = .error .deadPet := by
  unfold applyAction
  rw [if_neg (Nat.not_lt.mpr hseq), halive]

lemma applyAction_play_dead (p : Pet) (won : Bool) (cur : Nat)
    (halive : p.isAlive = false) (hseq : p.lastUpdateSequence ≤ cur) :
    applyAction p (.play won) cur = .error .deadPet := by
  unfold applyAction
  rw [if_neg (Nat.not_lt.mpr hseq), halive]

lemma applyAction_chatTouch_dead (p : Pet) (cur : Nat)
    (halive : p.isAlive = false) (hseq : p.lastUpdateSequence ≤ cur) :
    applyAction p .chatTouch cur = .ok p := by
  unfold applyAction
  rw [if_neg (Nat.not_lt.mpr hseq), halive]

lemma applyAction_forceUpdate_dead (p : Pet) (cur : Nat)
    (halive : p.isAlive = false) (hseq : p.lastUpdateSequence ≤ cur) :
    applyAction p .forceUpdate cur = .ok p := by
  unfold applyAction
  rw [if_neg (Nat.not_lt.mpr hseq), halive]

lemma applyAction_revive_dead (p : Pet) (cur : Nat)
    (halive : p.isAlive = false) (hseq : p.lastUpdateSequence ≤ cur) :
    applyAction p .revive cur = .ok (statAchievements (revived p cur)) := by
  unfold applyAction
  rw [if_neg (Nat.not_lt.mpr hseq), halive]

lemma applyAction_revive_alive (p : Pet) (cur : Nat)
    (halive : p.isAlive = true) (hseq : p.lastUpdateSequence ≤ cur) :
    applyAction p .revive cur = .error .deadPet := by
  unfold applyAction
  rw [if_neg (Nat.not_lt.mpr hseq), halive]

lemma applyAction_invalidSequence (p : Pet) (k : ActionKind) (cur : Nat)
    (hseq : cur < p.lastUpdateSequence) :
    applyAction p k cur = .error .invalidSequence := by
  unfold applyAction
  rw [if_pos hseq]

@[simp] lemma feedDeltas_hunger (p : Pet) : (feedDeltas p).hunger = p.hunger - 40 := rfl

@[simp] lemma feedDeltas_happiness (p : Pet) :
    (feedDeltas p).happiness = min (p.happiness + 15) 100 := rfl

@[simp] lemma feedDeltas_health (p : Pet) : (feedDeltas p).health = p.health := rfl

@[simp] lemma feedDeltas_stage (p : Pet) : (feedDeltas p).stage = p.stage := rfl

@[simp] lemma feedDeltas_isAlive (p : Pet) : (feedDeltas p).isAlive = p.isAlive := rfl

@[simp] lemma feedDeltas_feedCount (p : Pet) :
    (feedDeltas p).feedCount = p.feedCount + 1 := rfl

@[simp] lemma feedDeltas_playCount (p : Pet) :
    (feedDeltas p).playCount = p.playCount := rfl

@[simp] lemma feedDeltas_birthSequence (p : Pet) :
    (feedDeltas p).birthSequence = p.birthSequence := rfl

@[simp] lemma feedDeltas_earnedAchievements (p : Pet) :
    (feedDeltas p).earnedAchievements = p.earnedAchievements := rfl

@[simp] lemma playDeltas_hunger (won : Bool) (p : Pet) :
    (playDeltas won p).hunger = p.hunger := by
  unfold playDeltas; split <;> rfl

@[simp] lemma playDeltas_health (won : Bool) (p : Pet) :
    (playDeltas won p).health = p.health := by
  unfold playDeltas; split <;> rfl

@[simp] lemma playDeltas_stage (won : Bool) (p : Pet) :
    (playDeltas won p).stage = p.stage := by
  unfold playDeltas; split <;> rfl

@[simp] lemma playDeltas_isAlive (won : Bool) (p : Pet) :
    (playDeltas won p).isAlive = p.isAlive := by
  unfold playDeltas; split <;> rfl

@[simp] lemma playDeltas_feedCount (won : Bool) (p : Pet) :
    (playDeltas won p).feedCount = p.feedCount := by
  unfold playDeltas; split <;> rfl

@[simp] lemma playDeltas_birthSequence (won : Bool) (p : Pet) :
    (playDeltas won p).birthSequence = p.birthSequence := by
  unfold playDeltas; split <;> rfl

@[simp] lemma playDeltas_earnedAchievements (won : Bool) (p : Pet) :
    (playDeltas won p).earnedAchievements = p.earnedAchievements := by
  unfold playDeltas; split <;> rfl

@[simp] lemma playDeltas_true_playCount (p : Pet) :
    (playDeltas true p).playCount = p.playCount + 1 := rfl

@[simp] lemma playDeltas_true_happiness (p : Pet) :
    (playDeltas true p).happiness = min (p.happiness + 25) 100 := rfl

lemma playDeltas_happiness_le (won : Bool) (p : Pet) (h : p.happiness ≤ 100) :
    (playDeltas won p).happiness ≤ 100 := by
  unfold playDeltas
  split
  · exact min_le_right _ _
  · exact h

@[simp] lemma revived_health (p : Pet) (cur : Nat) : (revived p cur).health = 50 := rfl

@[simp] lemma revived_happiness (p : Pet) (cur : Nat) :
    (revived p cur).happiness = 30 := rfl

@[simp] lemma revived_hunger (p : Pet) (cur : Nat) : (revived p cur).hunger = 50 := rfl

@[simp] lemma revived_isAlive (p : Pet) (cur : Nat) :
    (revived p cur).isAlive = true := rfl

@[simp] lemma revived_stage (p : Pet) (cur : Nat) : (revived p cur).stage = p.stage := rfl

@[simp] lemma revived_birthSequence (p : Pet) (cur : Nat) :
    (revived p cur).birthSequence = p.birthSequence := rfl

@[simp] lemma revived_feedCount (p : Pet) (cur : Nat) :
    (revived p cur).feedCount = p.feedCount := rfl

@[simp] lemma revived_playCount (p : Pet) (cur : Nat) :
    (revived p cur).playCount = p.playCount := rfl

@[simp] lemma revived_earnedAchievements (p : Pet) (cur : Nat) :
    (revived p cur).earnedAchievements = addAch .survivedDeath p.earnedAchievements := rfl

@[simp] lemma statAchievements_earned (p : Pet) :
    (statAchievements p).earnedAchievements =
      achIf (10 ≤ p.playCount) .activePlayer
        (achIf (10 ≤ p.feedCount) .feedingStreak
          (achIf (isPerfect p) .perfectStats p.earnedAchievements)) := rfl

lemma mem_addAch_iff {a b : AchId} (h : a ≠ b) (l : List AchId) :
    a ∈ addAch b l ↔ a ∈ l := by
  unfold addAch
  split
  · exact Iff.rfl
  · simp [h]

lemma mem_achIf_iff {c : Prop} [Decidable c] {a b : AchId} (h : a ≠ b)
    (l : List AchId) : a ∈ achIf c b l ↔ a ∈ l := by
  unfold achIf
  split
  · exact mem_addAch_iff h l
  · exact Iff.rfl

lemma count_achIf_self {c : Prop} [Decidable c] {a : AchId} {l : List AchId}
    (h : a ∈ l) : (achIf c a l).count a = l.count a := by
  unfold achIf
  split
  · exact count_addAch_self_of_mem h
  · rfl

lemma evolveStep_count_ne (p : Pet) (cur : Nat) {a : AchId}
    (h1 : a ≠ .firstEvolution) (h2 : a ≠ .secondEvolution)
    (h3 : a ≠ .finalEvolution) :
    (evolveStep p cur).earnedAchievements.count a = p.earnedAchievements.count a := by
  obtain ⟨st, hap, hun, hea, bs, lus, ia, fc, pc, ea⟩ := p
  cases st
  · simp only [evolveStep]
    split
    · exact count_addAch_ne h1 _
    · rfl
  · simp only [evolveStep]
    split
    · exact count_addAch_ne h2 _
    · rfl
  · simp only [evolveStep]
    split
    · exact count_addAch_ne h3 _
    · rfl
  · rfl

lemma count_statAch_perfect_of_mem (x : Pet)
    (hm : AchId.perfectStats ∈ x.earnedAchievements) :
    (statAchievements x).earnedAchievements.count AchId.perfectStats =
      x.earnedAchievements.count AchId.perfectStats := by
  rw [statAchievements_earned, count_achIf_ne (by decide), count_achIf_ne (by decide),
    count_achIf_self hm]

lemma achIf_pos {c : Prop} [Decidable c] (h : c) (a : AchId) (l : List AchId) :
    achIf c a l = addAch a l := by
  unfold achIf
  exact if_pos h

lemma achIf_neg {c : Prop} [Decidable c] (h : ¬ c) (a : AchId) (l : List AchId) :
    achIf c a l = l := by
  unfold achIf
  exact if_neg h

lemma addAch_of_mem {a : AchId} {l : List AchId} (h : a ∈ l) : addAch a l = l := by
  unfold addAch
  exact if_pos h

lemma addAch_of_not_mem {a : AchId} {l : List AchId} (h : a ∉ l) :
    addAch a l = l ++ [a] := by
  unfold addAch
  exact if_neg h

lemma count_statAch_active (x : Pet) :
    (statAchievements x).earnedAchievements.count AchId.activePlayer =
      (if 10 ≤ x.playCount ∧ x.earnedAchievements.count AchId.activePlayer = 0
       then x.earnedAchievements.count AchId.activePlayer + 1
       else x.earnedAchievements.count AchId.activePlayer) := by
  rw [statAchievements_earned]
  set l0 := achIf (10 ≤ x.feedCount) AchId.feedingStreak
      (achIf (isPerfect x) AchId.perfectStats x.earnedAchievements) with hl0
  have hc : l0.count AchId.activePlayer =
      x.earnedAchievements.count AchId.activePlayer := by
    rw [hl0, count_achIf_ne (by decide), count_achIf_ne (by decide)]
  have hme : (AchId.activePlayer ∈ l0) ↔ AchId.activePlayer ∈ x.earnedAchievements := by
    rw [hl0, mem_achIf_iff (by decide), mem_achIf_iff (by decide)]
  by_cases hpc : 10 ≤ x.playCount
  · rw [achIf_pos hpc]
    by_cases hmem : AchId.activePlayer ∈ l0
    · rw [addAch_of_mem hmem, hc, if_neg]
      intro hand
      exact (List.count_eq_zero.mp hand.2) (hme.mp hmem)
    · rw [addAch_of_not_mem hmem, List.count_append, hc, if_pos
        ⟨hpc, List.count_eq_zero.mpr (fun hx => hmem (hme.mpr hx))⟩]
      simp
  · rw [achIf_neg hpc, hc, if_neg (fun hand => hpc hand.1)]

end PetWorld


namespace PetWorld

lemma statsBounded_decay (p : Pet) (cur : Nat) (h : StatsBounded p) :
    StatsBounded (decayStats p cur) := by
  obtain ⟨h1, h2, h3⟩ := h
  refine ⟨?_, ?_, ?_⟩
  · simp only [decayStats_happiness]
    exact le_trans (Nat.sub_le _ _) h1
  · simp only [decayStats_hunger]
    exact min_le_right _ _
  · simp only [decayStats_health]
    split
    · exact le_trans (Nat.sub_le _ _) h3
    · exact h3

lemma statsBounded_feedDeltas (p : Pet) (h : StatsBounded p) :
    StatsBounded (feedDeltas p) := by
  obtain ⟨h1, h2, h3⟩ := h
  exact ⟨min_le_right _ _, le_trans (Nat.sub_le _ _) h2, h3⟩

lemma statsBounded_playDeltas (won : Bool) (p : Pet) (h : StatsBounded p) :
    StatsBounded (playDeltas won p) := by
  obtain ⟨h1, h2, h3⟩ := h
  refine ⟨playDeltas_happiness_le won p h1, ?_, ?_⟩
  · rw [playDeltas_hunger]
    exact h2
  · rw [playDeltas_health]
    exact h3

lemma statsBounded_wrap (x : Pet) (cur : Nat) (h : StatsBounded x) :
    StatsBounded (statAchievements (deathCheck (evolveStep x cur))) := by
  obtain ⟨h1, h2, h3⟩ := h
  refine ⟨?_, ?_, ?_⟩ <;>
    simp only [statAchievements_happiness, statAchievements_hunger,
      statAchievements_health, deathCheck_happiness, deathCheck_hunger,
      deathCheck_health, evolveStep_happiness, evolveStep_hunger,
      evolveStep_health] <;>
    assumption

/-- C1: after every operation of the lifecycle (mint, decay, feed, play,
chatTouch, forceUpdate, revive), the three stats happiness, hunger and health
each lie in the closed integer interval from 0 to 100 (the lower bound is
inherent in the Nat representation). -/
theorem stats_bounded_lifecycle :
    (∀ cur, StatsBounded (mint cur)) ∧
    (∀ p cur, StatsBounded p → StatsBounded (decayStats p cur)) ∧
    (∀ p k cur, StatsBounded p → StatsBounded (runAction p k cur)) := by
  refine ⟨?_, fun p cur h => statsBounded_decay p cur h, ?_⟩
  · intro cur
    exact ⟨le_refl 100, Nat.zero_le 100, le_refl 100⟩
  · intro p k cur h
    unfold runAction
    rcases Nat.lt_or_ge cur p.lastUpdateSequence with hlt | hge
    · rw [applyAction_invalidSequence p k cur hlt]
      exact h
    · cases hal : p.isAlive
      case false =>
        cases k
        · rw [applyAction_feed_dead p cur hal hge]
          exact h
        · rw [applyAction_play_dead p _ cur hal hge]
          exact h
        · rw [applyAction_chatTouch_dead p cur hal hge]
          exact h
        · rw [applyAction_forceUpdate_dead p cur hal hge]
          exact h
        · rw [applyAction_revive_dead p cur hal hge]
          refine ⟨?_, ?_, ?_⟩ <;> simp
      case true =>
        cases k
        · rw [applyAction_feed_alive p cur hal hge]
          exact statsBounded_wrap _ cur (statsBounded_feedDeltas _ (statsBounded_decay p cur h))
        · rw [applyAction_play_alive p _ cur hal hge]
          exact statsBounded_wrap _ cur (statsBounded_playDeltas _ _ (statsBounded_decay p cur h))
        · rw [applyAction_chatTouch_alive p cur hal hge]
          exact statsBounded_wrap _ cur (statsBounded_decay p cur h)
        · rw [applyAction_forceUpdate_alive p cur hal hge]
          exact statsBounded_wrap _ cur (statsBounded_decay p cur h)
        · rw [applyAction_revive_alive p cur hal hge]
          exact h

/-- Witness for C1 at a concrete pet and sequence. -/
theorem stats_bounded_lifecycle_witness :
    StatsBounded (mint 3) ∧
    StatsBounded (decayStats (mint 3) 45) ∧
    StatsBounded (runAction (mint 3) .feed 45) :=
  ⟨stats_bounded_lifecycle.1 3,
   stats_bounded_lifecycle.2.1 (mint 3) 45 (stats_bounded_lifecycle.1 3),
   stats_bounded_lifecycle.2.2 (mint 3) .feed 45 (stats_bounded_lifecycle.1 3)⟩

end PetWorld

namespace PetWorld

/-- Sample record used by witnesses: an alive egg with saturated hunger. -/
def hungryPet : Pet :=
  { stage := .egg
    happiness := 40
    hunger := 100
    health := 80
    birthSequence := 0
    lastUpdateSequence := 0
    isAlive := true
    feedCount := 0
    playCount := 0
    earnedAchievements := [] }

/-- C2: one feed on an alive pet, applied after decay to the current
sequence, lowers hunger by 40 saturating at 0, raises happiness by 15
saturating at 100, and advances feedCount by exactly one; a pet whose hunger
is 100 at the current sequence ends at hunger 60. -/
theorem feed_effects (p : Pet) (cur : Nat) (halive : p.isAlive = true)
    (hseq : p.lastUpdateSequence ≤ cur) :
    ∃ q, applyAction p .feed cur = Except.ok q ∧
      q.hunger = (decayStats p cur).hunger - 40 ∧
      q.happiness = min ((decayStats p cur).happiness + 15) 100 ∧
      q.feedCount = p.feedCount + 1 ∧
      ((decayStats p cur).hunger = 100 → q.hunger = 60) := by
  refine ⟨_, applyAction_feed_alive p cur halive hseq, ?_, ?_, ?_, ?_⟩
  · simp [evolveStep_hunger]
  · simp [evolveStep_happiness]
  · simp [evolveStep_feedCount]
  · intro h100
    simp only [statAchievements_hunger, deathCheck_hunger, evolveStep_hunger,
      feedDeltas_hunger, h100]

/-- Witness for C2 on a concrete pet with hunger 100 at the current
sequence. -/
theorem feed_effects_witness :
    (runAction hungryPet .feed 0).hunger = 60 ∧
    (runAction hungryPet .feed 0).happiness = min (40 + 15) 100 ∧
    (runAction hungryPet .feed 0).feedCount = 1 := by
  obtain ⟨q, hq, h1, h2, h3, h4⟩ := feed_effects hungryPet 0 rfl (by decide)
  have hrq : runAction hungryPet .feed 0 = q := by
    unfold runAction
    rw [hq]
  refine ⟨?_, ?_, ?_⟩
  · rw [hrq]
    exact h4 (by decide)
  · rw [hrq, h2]
    decide
  · rw [hrq, h3]
    decide

/-- C3: decay over an elapsed distance raises hunger by elapsed/30 capped at
100, lowers happiness by elapsed/60 floored at 0, and lowers health by
elapsed/30 (floored at 0) only while hunger is saturated at 100, leaving
health unchanged otherwise. -/
theorem decay_effects (p : Pet) (cur : Nat) (hseq : p.lastUpdateSequence ≤ cur) :
    (decayStats p cur).hunger =
      min (p.hunger + (cur - p.lastUpdateSequence) / 30) 100 ∧
    (decayStats p cur).happiness =
      p.happiness - (cur - p.lastUpdateSequence) / 60 ∧
    (p.hunger = 100 →
      (decayStats p cur).health = p.health - (cur - p.lastUpdateSequence) / 30) ∧
    (p.hunger ≠ 100 → (decayStats p cur).health = p.health) := by
  refine ⟨rfl, rfl, ?_, ?_⟩
  · intro h
    simp [h]
  · intro h
    simp [h]

/-- Witness for C3 on a concrete hunger-saturated pet over 90 elapsed
units. -/
theorem decay_effects_witness :
    (decayStats hungryPet 90).hunger = min (100 + 90 / 30) 100 ∧
    (decayStats hungryPet 90).happiness = 40 - 90 / 60 ∧
    (decayStats hungryPet 90).health = 80 - 90 / 30 := by
  obtain ⟨h1, h2, h3, h4⟩ := decay_effects hungryPet 90 (by decide)
  exact ⟨h1, h2, h3 rfl⟩

end PetWorld

namespace PetWorld

/-- Sample record used by the death scenario: an alive pet one step from
starving to death (hunger saturated, health 1). -/
def dyingPet : Pet :=
  { stage := .egg
    happiness := 0
    hunger := 100
    health := 1
    birthSequence := 0
    lastUpdateSequence := 0
    isAlive := true
    feedCount := 0
    playCount := 0
    earnedAchievements := [] }

lemma runAction_eq_of_ok {p q : Pet} {k : ActionKind} {cur : Nat}
    (h : applyAction p k cur = Except.ok q) : runAction p k cur = q := by
  unfold runAction
  rw [h]

/-- C4 counterexample: a pet that dies by decay and is then revived does NOT
keep earnedAchievements unchanged — revival unlocks the survived-death
achievement, so the claim's unchanged-list conjunct fails here. -/
theorem death_revive_counterexample :
    (runAction dyingPet .forceUpdate 30).isAlive = false ∧
    (runAction dyingPet .forceUpdate 30).health = 0 ∧
    (runAction (runAction dyingPet .forceUpdate 30) .revive 30).earnedAchievements ≠
      (runAction dyingPet .forceUpdate 30).earnedAchievements := by
  refine ⟨rfl, rfl, ?_⟩
  decide

/-- C4 as amended: health 0 after a transition makes the pet dead; feed on a
dead pet fails with the dead-pet error; revive on a dead pet sets health 50,
happiness 30, hunger 50, makes it alive, keeps stage, birth sequence and both
counters, and only extends earnedAchievements (adding survived-death), never
dropping previously earned ones. -/
theorem death_feed_revive :
    (∀ p k cur q, applyAction p k cur = Except.ok q → q.health = 0 →
      q.isAlive = false) ∧
    (∀ p cur, p.isAlive = false → p.lastUpdateSequence ≤ cur →
      applyAction p .feed cur = Except.error PetError.deadPet) ∧
    (∀ p cur, p.isAlive = false → p.lastUpdateSequence ≤ cur →
      ∃ q, applyAction p .revive cur = Except.ok q ∧
        q.health = 50 ∧ q.happiness = 30 ∧ q.hunger = 50 ∧ q.isAlive = true ∧
        q.stage = p.stage ∧ q.birthSequence = p.birthSequence ∧
        q.feedCount = p.feedCount ∧ q.playCount = p.playCount ∧
        p.earnedAchievements <+: q.earnedAchievements ∧
        AchId.survivedDeath ∈ q.earnedAchievements) := by
  refine ⟨?_, ?_, ?_⟩
  · intro p k cur q hok hq
    rcases Nat.lt_or_ge cur p.lastUpdateSequence with hlt | hge
    · rw [applyAction_invalidSequence p k cur hlt] at hok
      simp at hok
    · cases hal : p.isAlive
      case false =>
        cases k
        · rw [applyAction_feed_dead p cur hal hge] at hok
          simp at hok
        · rw [applyAction_play_dead p _ cur hal hge] at hok
          simp at hok
        · rw [applyAction_chatTouch_dead p cur hal hge] at hok
          injection hok with h
          rw [← h]
          exact hal
        · rw [applyAction_forceUpdate_dead p cur hal hge] at hok
          injection hok with h
          rw [← h]
          exact hal
        · rw [applyAction_revive_dead p cur hal hge] at hok
          injection hok with h
          rw [← h] at hq
          simp at hq
      case true =>
        cases k
        · rw [applyAction_feed_alive p cur hal hge] at hok
          injection hok with h
          rw [← h] at hq ⊢
          simp only [statAchievements_health, deathCheck_health] at hq
          simp [deathCheck_isAlive, hq]
        · rw [applyAction_play_alive p _ cur hal hge] at hok
          injection hok with h
          rw [← h] at hq ⊢
          simp only [statAchievements_health, deathCheck_health] at hq
          simp [deathCheck_isAlive, hq]
        · rw [applyAction_chatTouch_alive p cur hal hge] at hok
          injection hok with h
          rw [← h] at hq ⊢
          simp only [statAchievements_health, deathCheck_health] at hq
          simp [deathCheck_isAlive, hq]
        · rw [applyAction_forceUpdate_alive p cur hal hge] at hok
          injection hok with h
          rw [← h] at hq ⊢
          simp only [statAchievements_health, deathCheck_health] at hq
          simp [deathCheck_isAlive, hq]
        · rw [applyAction_revive_alive p cur hal hge] at hok
          simp at hok
  · intro p cur hal hge
    exact applyAction_feed_dead p cur hal hge
  · intro p cur hal hge
    refine ⟨_, applyAction_revive_dead p cur hal hge, rfl, rfl, rfl, rfl, rfl, rfl,
      rfl, rfl, ?_, ?_⟩
    · refine List.IsPrefix.trans ?_ (statAchievements_earned_initial (revived p cur))
      rw [revived_earnedAchievements]
      exact addAch_initial _ _
    · have hm : AchId.survivedDeath ∈ (revived p cur).earnedAchievements := by
        rw [revived_earnedAchievements]
        exact mem_addAch_self _ _
      rw [statAchievements_earned]
      exact mem_achIf_of_mem _ _ (mem_achIf_of_mem _ _ (mem_achIf_of_mem _ _ hm))

/-- Witness for the amended C4 on the concrete starving pet. -/
theorem death_feed_revive_witness :
    (runAction dyingPet .forceUpdate 30).isAlive = false ∧
    applyAction (runAction dyingPet .forceUpdate 30) .feed 30 =
      Except.error PetError.deadPet ∧
    AchId.survivedDeath ∈
      (runAction (runAction dyingPet .forceUpdate 30) .revive 30).earnedAchievements := by
  refine ⟨?_, ?_, ?_⟩
  · exact death_feed_revive.1 dyingPet .forceUpdate 30
      (runAction dyingPet .forceUpdate 30) rfl rfl
  · exact death_feed_revive.2.1 (runAction dyingPet .forceUpdate 30) 30 rfl (by decide)
  · obtain ⟨q, hq, h1, h2, h3, h4, h5, h6, h7, h8, h9, h10⟩ :=
      death_feed_revive.2.2 (runAction dyingPet .forceUpdate 30) 30 rfl (by decide)
    rw [runAction_eq_of_ok hq]
    exact h10

end PetWorld

namespace PetWorld

/-- C5: a pet minted at sequence 0 with no intervening actions and
force-updated at sequence 36 evolves from Egg to Baby, because the Egg-to-Baby
condition is age at least 36 with no stat requirement. -/
theorem egg_to_baby_at_36 :
    (mint 0).stage = Stage.egg ∧
    (runAction (mint 0) .forceUpdate 36).stage = Stage.baby ∧
    (∀ p cur, p.stage = Stage.egg → 36 ≤ cur - p.birthSequence →
      (evolveStep p cur).stage = Stage.baby) := by
  refine ⟨rfl, rfl, ?_⟩
  intro p cur h1 h2
  obtain ⟨st, hap, hun, hea, bs, lus, ia, fc, pc, ea⟩ := p
  simp only at h1
  subst h1
  simp only [evolveStep]
  rw [if_pos h2]

/-- Witness for C5's generic conjunct at a concrete egg with low stats. -/
theorem egg_to_baby_at_36_witness :
    (evolveStep dyingPet 36).stage = Stage.baby :=
  egg_to_baby_at_36.2.2 dyingPet 36 rfl (by decide)

lemma wrap_rank (x : Pet) (cur : Nat) :
    stageRank x.stage ≤
      stageRank (statAchievements (deathCheck (evolveStep x cur))).stage ∧
    stageRank (statAchievements (deathCheck (evolveStep x cur))).stage ≤
      stageRank x.stage + 1 := by
  simp only [statAchievements_stage, deathCheck_stage]
  exact ⟨evolveStep_rank_le x cur, evolveStep_rank_succ x cur⟩

lemma runAction_rank (p : Pet) (k : ActionKind) (cur : Nat) :
    stageRank p.stage ≤ stageRank (runAction p k cur).stage ∧
    stageRank (runAction p k cur).stage ≤ stageRank p.stage + 1 := by
  unfold runAction
  rcases Nat.lt_or_ge cur p.lastUpdateSequence with hlt | hge
  · rw [applyAction_invalidSequence p k cur hlt]
    exact ⟨le_refl _, Nat.le_succ _⟩
  · cases hal : p.isAlive
    case false =>
      cases k
      · rw [applyAction_feed_dead p cur hal hge]
        exact ⟨le_refl _, Nat.le_succ _⟩
      · rw [applyAction_play_dead p _ cur hal hge]
        exact ⟨le_refl _, Nat.le_succ _⟩
      · rw [applyAction_chatTouch_dead p cur hal hge]
        exact ⟨le_refl _, Nat.le_succ _⟩
      · rw [applyAction_forceUpdate_dead p cur hal hge]
        exact ⟨le_refl _, Nat.le_succ _⟩
      · rw [applyAction_revive_dead p cur hal hge]
        simp only [statAchievements_stage, revived_stage]
        exact ⟨le_refl _, Nat.le_succ _⟩
    case true =>
      cases k
      · rw [applyAction_feed_alive p cur hal hge]
        have h := wrap_rank (feedDeltas (decayStats p cur)) cur
        simp only [feedDeltas_stage, decayStats_stage] at h
        exact h
      · rename_i won
        rw [applyAction_play_alive p won cur hal hge]
        have h := wrap_rank (playDeltas won (decayStats p cur)) cur
        simp only [playDeltas_stage, decayStats_stage] at h
        exact h
      · rw [applyAction_chatTouch_alive p cur hal hge]
        have h := wrap_rank (decayStats p cur) cur
        simp only [decayStats_stage] at h
        exact h
      · rw [applyAction_forceUpdate_alive p cur hal hge]
        have h := wrap_rank (decayStats p cur) cur
        simp only [decayStats_stage] at h
        exact h
      · rw [applyAction_revive_alive p cur hal hge]
        exact ⟨le_refl _, Nat.le_succ _⟩

/-- C6: the stage rank never decreases under any transition or any sequence
of transitions, and a single transition advances the stage by at most one. -/
theorem stage_monotone :
    (∀ p k cur, stageRank p.stage ≤ stageRank (runAction p k cur).stage) ∧
    (∀ p k cur, stageRank (runAction p k cur).stage ≤ stageRank p.stage + 1) ∧
    (∀ p l, stageRank p.stage ≤ stageRank (runActions p l).stage) := by
  refine ⟨fun p k cur => (runAction_rank p k cur).1,
    fun p k cur => (runAction_rank p k cur).2, ?_⟩
  intro p l
  induction l generalizing p with
  | nil => exact le_refl _
  | cons hd tl ih =>
      obtain ⟨k, c⟩ := hd
      exact le_trans (runAction_rank p k c).1 (ih (runAction p k c))

end PetWorld

namespace PetWorld

lemma perfect_count_wrap (x : Pet) (cur : Nat)
    (hc : x.earnedAchievements.count AchId.perfectStats = 1)
    (hm : AchId.perfectStats ∈ x.earnedAchievements) :
    (statAchievements (deathCheck (evolveStep x cur))).earnedAchievements.count
      AchId.perfectStats = 1 := by
  have hm2 : AchId.perfectStats ∈ (deathCheck (evolveStep x cur)).earnedAchievements := by
    rw [deathCheck_earnedAchievements]
    exact (evolveStep_earned_initial x cur).subset hm
  rw [count_statAch_perfect_of_mem _ hm2, deathCheck_earnedAchievements,
    evolveStep_count_ne x cur (by decide) (by decide) (by decide), hc]

lemma perfect_count_preserved (p : Pet) (k : ActionKind) (cur : Nat)
    (h : p.earnedAchievements.count AchId.perfectStats = 1) :
    (runAction p k cur).earnedAchievements.count AchId.perfectStats = 1 := by
  have hmemp : AchId.perfectStats ∈ p.earnedAchievements := by
    by_contra hn
    rw [List.count_eq_zero_of_not_mem hn] at h
    exact absurd h (by decide)
  unfold runAction
  rcases Nat.lt_or_ge cur p.lastUpdateSequence with hlt | hge
  · rw [applyAction_invalidSequence p k cur hlt]
    exact h
  · cases hal : p.isAlive
    case false =>
      cases k
      · rw [applyAction_feed_dead p cur hal hge]
        exact h
      · rw [applyAction_play_dead p _ cur hal hge]
        exact h
      · rw [applyAction_chatTouch_dead p cur hal hge]
        exact h
      · rw [applyAction_forceUpdate_dead p cur hal hge]
        exact h
      · rw [applyAction_revive_dead p cur hal hge]
        have hm2 : AchId.perfectStats ∈ (revived p cur).earnedAchievements := by
          rw [revived_earnedAchievements]
          exact mem_addAch_of_mem _ hmemp
        rw [count_statAch_perfect_of_mem _ hm2, revived_earnedAchievements,
          count_addAch_ne (by decide), h]
    case true =>
      cases k
      · rw [applyAction_feed_alive p cur hal hge]
        exact perfect_count_wrap _ cur h hmemp
      · rename_i won
        rw [applyAction_play_alive p won cur hal hge]
        refine perfect_count_wrap _ cur ?_ ?_
        · rw [playDeltas_earnedAchievements]
          exact h
        · rw [playDeltas_earnedAchievements]
          exact hmemp
      · rw [applyAction_chatTouch_alive p cur hal hge]
        exact perfect_count_wrap _ cur h hmemp
      · rw [applyAction_forceUpdate_alive p cur hal hge]
        exact perfect_count_wrap _ cur h hmemp
      · rw [applyAction_revive_alive p cur hal hge]
        exact h

/-- C7: the perfect-stats achievement is unlocked whenever the simultaneous
state happiness 100, hunger 0, health 100 is reached (including at mint,
whose fresh record is perfect and already carries the achievement exactly
once), and once earned its multiplicity stays exactly one over any further
transitions. -/
theorem perfect_stats_once :
    (∀ cur, (mint cur).earnedAchievements.count AchId.perfectStats = 1) ∧
    (∀ p k cur q, p.isAlive = true → applyAction p k cur = Except.ok q →
      isPerfect q = true → AchId.perfectStats ∈ q.earnedAchievements) ∧
    (∀ p l, p.earnedAchievements.count AchId.perfectStats = 1 →
      (runActions p l).earnedAchievements.count AchId.perfectStats = 1) := by
  refine ⟨fun cur => rfl, ?_, ?_⟩
  · intro p k cur q hal hok hperf
    rcases Nat.lt_or_ge cur p.lastUpdateSequence with hlt | hge
    · rw [applyAction_invalidSequence p k cur hlt] at hok
      simp at hok
    · cases k
      · rw [applyAction_feed_alive p cur hal hge] at hok
        injection hok with h
        rw [← h] at hperf ⊢
        rw [statAchievements_earned]
        refine mem_achIf_of_mem _ _ (mem_achIf_of_mem _ _ (mem_achIf_self ?_ _ _))
        have : isPerfect (statAchievements (deathCheck (evolveStep
            (feedDeltas (decayStats p cur)) cur))) =
            isPerfect (deathCheck (evolveStep (feedDeltas (decayStats p cur)) cur)) := rfl
        rw [this] at hperf
        exact hperf
      · rename_i won
        rw [applyAction_play_alive p won cur hal hge] at hok
        injection hok with h
        rw [← h] at hperf ⊢
        rw [statAchievements_earned]
        refine mem_achIf_of_mem _ _ (mem_achIf_of_mem _ _ (mem_achIf_self ?_ _ _))
        have : isPerfect (statAchievements (deathCheck (evolveStep
            (playDeltas won (decayStats p cur)) cur))) =
            isPerfect (deathCheck (evolveStep (playDeltas won (decayStats p cur)) cur)) := rfl
        rw [this] at hperf
        exact hperf
      · rw [applyAction_chatTouch_alive p cur hal hge] at hok
        injection hok with h
        rw [← h] at hperf ⊢
        rw [statAchievements_earned]
        refine mem_achIf_of_mem _ _ (mem_achIf_of_mem _ _ (mem_achIf_self ?_ _ _))
        have : isPerfect (statAchievements (deathCheck (evolveStep
            (decayStats p cur) cur))) =
            isPerfect (deathCheck (evolveStep (decayStats p cur) cur)) := rfl
        rw [this] at hperf
        exact hperf
      · rw [applyAction_forceUpdate_alive p cur hal hge] at hok
        injection hok with h
        rw [← h] at hperf ⊢
        rw [statAchievements_earned]
        refine mem_achIf_of_mem _ _ (mem_achIf_of_mem _ _ (mem_achIf_self ?_ _ _))
        have : isPerfect (statAchievements (deathCheck (evolveStep
            (decayStats p cur) cur))) =
            isPerfect (deathCheck (evolveStep (decayStats p cur) cur)) := rfl
        rw [this] at hperf
        exact hperf
      · rw [applyAction_revive_alive p cur hal hge] at hok
        simp at hok
  · intro p l h
    induction l generalizing p with
    | nil => exact h
    | cons hd tl ih =>
        obtain ⟨k, c⟩ := hd
        exact ih (runAction p k c) (perfect_count_preserved p k c h)

/-- Witness for C7: the freshly minted pet, a feed right after mint (which
keeps the stats perfect), and a later forced update all show multiplicity
one. -/
theorem perfect_stats_once_witness :
    (mint 0).earnedAchievements.count AchId.perfectStats = 1 ∧
    AchId.perfectStats ∈ (runAction (mint 0) .feed 0).earnedAchievements ∧
    (runActions (mint 0) [(.forceUpdate, 40)]).earnedAchievements.count
      AchId.perfectStats = 1 :=
  ⟨perfect_stats_once.1 0,
   perfect_stats_once.2.1 (mint 0) .feed 0 (runAction (mint 0) .feed 0) rfl rfl rfl,
   perfect_stats_once.2.2 (mint 0) [(.forceUpdate, 40)] rfl⟩

end PetWorld

namespace PetWorld

/-- Iterated winning play at the pet's own last-update sequence (so no decay
elapses between the games). -/
def playN (p : Pet) : Nat → Pet
  | 0 => p
  | n + 1 => runAction (playN p n) (.play true) (playN p n).lastUpdateSequence

lemma playTick (q : Pet) (halive : q.isAlive = true) (hh : ¬ q.health = 0)
    (hhun : q.hunger ≤ 100) :
    (runAction q (.play true) q.lastUpdateSequence).isAlive = true ∧
    (runAction q (.play true) q.lastUpdateSequence).health = q.health ∧
    (runAction q (.play true) q.lastUpdateSequence).hunger = q.hunger ∧
    (runAction q (.play true) q.lastUpdateSequence).playCount = q.playCount + 1 ∧
    (runAction q (.play true) q.lastUpdateSequence).earnedAchievements.count
        AchId.activePlayer =
      (if 10 ≤ q.playCount + 1 ∧
          q.earnedAchievements.count AchId.activePlayer = 0
       then q.earnedAchievements.count AchId.activePlayer + 1
       else q.earnedAchievements.count AchId.activePlayer) := by
  have happ : applyAction q (.play true) q.lastUpdateSequence =
      Except.ok (statAchievements (deathCheck
        (evolveStep (playDeltas true q) q.lastUpdateSequence))) := by
    rw [applyAction_play_alive q true q.lastUpdateSequence halive (le_refl _),
      decayStats_self q hhun]
  rw [runAction_eq_of_ok happ]
  have hhealth : (evolveStep (playDeltas true q) q.lastUpdateSequence).health =
      q.health := by
    rw [evolveStep_health, playDeltas_health]
  refine ⟨?_, ?_, ?_, ?_, ?_⟩
  · rw [statAchievements_isAlive, deathCheck_isAlive, hhealth, if_neg hh,
      evolveStep_isAlive, playDeltas_isAlive, halive]
  · rw [statAchievements_health, deathCheck_health, hhealth]
  · rw [statAchievements_hunger, deathCheck_hunger, evolveStep_hunger,
      playDeltas_hunger]
  · rw [statAchievements_playCount, deathCheck_playCount, evolveStep_playCount,
      playDeltas_true_playCount]
  · rw [count_statAch_active, deathCheck_playCount, evolveStep_playCount,
      playDeltas_true_playCount, deathCheck_earnedAchievements,
      evolveStep_count_ne _ _ (by decide) (by decide) (by decide),
      playDeltas_earnedAchievements]

/-- C8: starting from an alive pet with playCount 0 and without the
active-player achievement, a run of winning plays earns the achievement
exactly on the tenth win: its multiplicity is 0 after fewer than ten wins and
exactly 1 after ten or more. -/
theorem active_player_tenth_win (p : Pet) (halive : p.isAlive = true)
    (hh : ¬ p.health = 0) (hhun : p.hunger ≤ 100) (hpc : p.playCount = 0)
    (hnot : AchId.activePlayer ∉ p.earnedAchievements) :
    ∀ n : Nat, (playN p n).earnedAchievements.count AchId.activePlayer =
      (if 10 ≤ n then 1 else 0) := by
  have key : ∀ n : Nat, (playN p n).isAlive = true ∧
      (playN p n).health = p.health ∧ (playN p n).hunger = p.hunger ∧
      (playN p n).playCount = n ∧
      (playN p n).earnedAchievements.count AchId.activePlayer =
        (if 10 ≤ n then 1 else 0) := by
    intro n
    induction n with
    | zero =>
        refine ⟨halive, rfl, rfl, hpc, ?_⟩
        show p.earnedAchievements.count AchId.activePlayer = (if 10 ≤ 0 then 1 else 0)
        rw [List.count_eq_zero_of_not_mem hnot, if_neg (by omega)]
    | succ m ih =>
        obtain ⟨ih1, ih2, ih3, ih4, ih5⟩ := ih
        obtain ⟨s1, s2, s3, s4, s5⟩ :=
          playTick (playN p m) ih1 (by rw [ih2]; exact hh) (by rw [ih3]; exact hhun)
        refine ⟨s1, ?_, ?_, ?_, ?_⟩
        · show (runAction (playN p m) (.play true)
            (playN p m).lastUpdateSequence).health = p.health
          rw [s2, ih2]
        · show (runAction (playN p m) (.play true)
            (playN p m).lastUpdateSequence).hunger = p.hunger
          rw [s3, ih3]
        · show (runAction (playN p m) (.play true)
            (playN p m).lastUpdateSequence).playCount = m + 1
          rw [s4, ih4]
        · show (runAction (playN p m) (.play true)
            (playN p m).lastUpdateSequence).earnedAchievements.count
            AchId.activePlayer = (if 10 ≤ m + 1 then 1 else 0)
          rw [s5, ih4, ih5]
          by_cases hm : 10 ≤ m
          · rw [if_pos hm, if_neg (by omega), if_pos (by omega)]
          · rw [if_neg hm]
            by_cases h10 : 10 ≤ m + 1
            · rw [if_pos ⟨h10, rfl⟩, if_pos h10]
            · rw [if_neg (by omega), if_neg h10]
  exact fun n => (key n).2.2.2.2

/-- Sample record used by the C8 witness: a healthy egg that has never
played. -/
def freshPlayer : Pet :=
  { stage := .egg
    happiness := 50
    hunger := 0
    health := 100
    birthSequence := 0
    lastUpdateSequence := 0
    isAlive := true
    feedCount := 0
    playCount := 0
    earnedAchievements := [] }

/-- Witness for C8: ten winning plays on the concrete fresh pet give the
active-player achievement multiplicity one. -/
theorem active_player_tenth_win_witness :
    (playN freshPlayer 10).earnedAchievements.count AchId.activePlayer =
      (if 10 ≤ 10 then 1 else 0) :=
  active_player_tenth_win freshPlayer rfl (by decide) (by decide) rfl
    (by decide) 10

end PetWorld

namespace AutoUpdate

lemma driverStep_running_le_one (s : DriverState) (e : DriverEvent)
    (h : s.running ≤ 1) : (driverStep s e).running ≤ 1 := by
  cases e
  · simp only [driverStep]
    split
    · exact h
    · split
      · exact h
      · rename_i h0
        show s.running + 1 ≤ 1
        omega
  · show s.running - 1 ≤ 1
    omega
  · exact h

/-- C9: the periodic driver fires at the fixed five-minute interval (300000
milliseconds), a tick performs no update while the page is hidden or while a
prior sweep is still in flight, and along any event history from
initialisation at most one sweep is ever in flight. -/
theorem auto_update_single_sweep :
    updateIntervalMs = 300000 ∧
    (∀ s : DriverState, s.documentHidden = true → driverStep s .tick = s) ∧
    (∀ s : DriverState, s.running ≠ 0 → driverStep s .tick = s) ∧
    (∀ es : List DriverEvent, (driverRun driverInit es).running ≤ 1) := by
  refine ⟨rfl, ?_, ?_, ?_⟩
  · intro s h
    simp only [driverStep]
    rw [if_pos h]
  · intro s h
    simp only [driverStep]
    split <;> rfl
  · have general : ∀ (es : List DriverEvent) (s : DriverState), s.running ≤ 1 →
        (driverRun s es).running ≤ 1 := by
      intro es
      induction es with
      | nil => exact fun s h => h
      | cons e tl ih => exact fun s h => ih _ (driverStep_running_le_one s e h)
    exact fun es => general es driverInit (by decide)

/-- Witness for C9 at concrete driver states and a concrete event history. -/
theorem auto_update_single_sweep_witness :
    driverStep { documentHidden := true, running := 0 } .tick =
      { documentHidden := true, running := 0 } ∧
    driverStep { documentHidden := false, running := 1 } .tick =
      { documentHidden := false, running := 1 } ∧
    (driverRun driverInit [.tick, .tick, .sweepDone, .tick]).running ≤ 1 :=
  ⟨auto_update_single_sweep.2.1 _ rfl,
   auto_update_single_sweep.2.2.1 _ (by decide),
   auto_update_single_sweep.2.2.2 [.tick, .tick, .sweepDone, .tick]⟩

end AutoUpdate

namespace Rps

/-- C10: determineWinner returns a draw exactly on equal choices, a win
exactly on the pairs rock-scissors, paper-rock and scissors-paper, a loss in
every remaining case, and the claim-reward button (the only path to the
pet-rewarding onGameWin callback) is shown exactly when the result is a
win. -/
theorem determine_winner_spec :
    (∀ p c : Choice, determineWinner (some p) (some c) = .draw ↔ p = c) ∧
    (∀ p c : Choice, determineWinner (some p) (some c) = .win ↔
      ((p = .rock ∧ c = .scissors) ∨ (p = .paper ∧ c = .rock) ∨
        (p = .scissors ∧ c = .paper))) ∧
    (∀ p c : Choice, determineWinner (some p) (some c) = .lose ↔
      (¬ p = c ∧ ¬ ((p = .rock ∧ c = .scissors) ∨ (p = .paper ∧ c = .rock) ∨
        (p = .scissors ∧ c = .paper)))) ∧
    (∀ p c : Choice,
      claimRewardShown (some (determineWinner (some p) (some c))) = true ↔
        determineWinner (some p) (some c) = .win) := by
  refine ⟨?_, ?_, ?_, ?_⟩ <;> decide

end Rps
